import Mathlib

/-!
# Power LED controller (`power-led/power-led.cpp`)

A shallow embedding of the POST-code comparison `checkSameCode`, of the two
event handlers `updatePostcodeStatus` and `updatePowerStatus`, of the LED
resolver `updatePowerLed` and of the startup sequence of `main`, followed by
the properties established about them.

Conventions of the embedding:

* a `std::vector<uint8_t>` is a `List uint8_t`, an iterator into it is an
  integer position, and dereferencing a position outside `[0, size)` is
  undefined behaviour, rendered as the result `none`;
* `size_t` arithmetic is arithmetic modulo `2 ^ 64`, and the conversion to the
  iterator difference type is the two's complement reading of that value;
* the process-wide flags `started_post`, `ended_post`, `host_power_on` form
  the record `Flags`, threaded explicitly through the handlers;
* the values read from the configuration file form the record `Config`;
* the effect of a handler on the LED groups is the list of the invocations of
  `updatePowerLed` it makes, each given by its `setLedGroup` calls in order.
-/

namespace PowerLed

/-! ## Data model -/

/-- One byte of a POST code. -/
abbrev uint8_t := Fin 256

/-- The entry type of `power-led-match.hpp`:
`std::tuple<primarycode_t, secondarycode_t>`. -/
abbrev postcode_t := Nat × List uint8_t

/-- The globals filled in by `readConfig`. -/
structure Config where
  POST_start : List uint8_t
  POST_end : List uint8_t
  BMC_booted_group : String
  post_active_group : String
  fully_powered_on_group : String
  deriving Repr, DecidableEq

/-- The three process-wide flags. -/
structure Flags where
  started_post : Bool
  ended_post : Bool
  host_power_on : Bool
  deriving Repr, DecidableEq

/-- One call `setLedGroup(conn, name, on)`: the group name and the requested
value of its `Asserted` property. -/
abbrev LedRequest := String × Bool

/-- The value of the flags when the process starts (all three globals are
initialised to `false`). -/
def initialFlags : Flags :=
  { started_post := false, ended_post := false, host_power_on := false }

/-! ## `checkSameCode` -/

/-- The width of `size_t`. -/
def sizeBits : Nat := 64

/-- Subtraction of two `size_t` values. -/
def sizeSub (x y : Nat) : Nat :=
  (x % 2 ^ sizeBits + 2 ^ sizeBits - y % 2 ^ sizeBits) % 2 ^ sizeBits

/-- Conversion of a `size_t` value to the signed difference type, as done by
`std::advance` for its distance argument. -/
def toDifference (u : Nat) : Int :=
  if u % 2 ^ sizeBits < 2 ^ (sizeBits - 1) then ((u % 2 ^ sizeBits : Nat) : Int)
  else ((u % 2 ^ sizeBits : Nat) : Int) - 2 ^ sizeBits

/-- The distance passed to `advance`:
`longer_code.size() - shorter_code.size() - 1`. -/
def advanceDistance (longerSize shorterSize : Nat) : Int :=
  toDifference (sizeSub (sizeSub longerSize shorterSize) 1)

/-- Dereference of the iterator `code.begin() + pos`; `none` when the position
is outside the vector. -/
def deref (code : List uint8_t) (pos : Int) : Option uint8_t :=
  if 0 ≤ pos then code[pos.toNat]? else none

/-- The comparison loop of `checkSameCode`. The second argument is the
position of `longer_it`, the third is the range from `shorter_it` to
`shorter_code.end()`. The loop condition is a comma expression, so only
`shorter_it != shorter_code.end()` decides whether the body runs. -/
def compareLoop (longer_code : List uint8_t) : Int → List uint8_t → Option Int
  | _, [] => some 0
  | pos, s :: rest =>
    match deref longer_code pos with
    | none => none
    | some l => if l ≠ s then some 1 else compareLoop longer_code (pos + 1) rest

/-- The function `checkSameCode(a, b)`: `some 0` if equivalent, `some 1` if
not, `some (-1)` on a length error, `none` when the execution dereferences an
iterator outside its vector. Past the length check the shorter vector is not
empty, so the loop body runs at least once and the position reached by
`advance` is dereferenced. -/
def checkSameCode (a b : List uint8_t) : Option Int :=
  if a.length > 9 ∨ b.length > 9 ∨ a.length = 0 ∨ b.length = 0 then some (-1)
  else
    let shorter_code := if a.length ≥ b.length then b else a
    let longer_code := if a.length ≥ b.length then a else b
    compareLoop longer_code
      (advanceDistance longer_code.length shorter_code.length) shorter_code

/-! ## `updatePowerLed` -/

/-- The function `updatePowerLed()`: the `setLedGroup` calls it makes, in
order. The last alternative is the path on which no branch of the `if` chain
is taken. -/
def updatePowerLed (cfg : Config) (st : Flags) : List LedRequest :=
  if !st.host_power_on || !st.started_post then
    [(cfg.post_active_group, false), (cfg.fully_powered_on_group, false),
     (cfg.BMC_booted_group, true)]
  else if st.host_power_on && st.started_post && !st.ended_post then
    [(cfg.BMC_booted_group, false), (cfg.post_active_group, true),
     (cfg.fully_powered_on_group, false)]
  else if st.host_power_on && st.started_post && st.ended_post then
    [(cfg.post_active_group, false), (cfg.fully_powered_on_group, true)]
  else []

/-- The groups a list of requests asserts, in order. -/
def asserted (reqs : List LedRequest) : List String :=
  (reqs.filter (fun r => r.2)).map (fun r => r.1)

/-- The groups a list of requests de-asserts, in order. -/
def deasserted (reqs : List LedRequest) : List String :=
  (reqs.filter (fun r => !r.2)).map (fun r => r.1)

/-! ## `updatePostcodeStatus` -/

/-- The condition `!flag && checkSameCode(code, reference) == 0`, with the
short circuit of `&&`: the comparison is not evaluated when the flag is
already set. -/
def guardedMatch (flag : Bool) (code reference : List uint8_t) : Option Bool :=
  if !flag then (checkSameCode code reference).map (fun r => r == 0) else some false

/-- One iteration of the loop of `updatePostcodeStatus`, on the flags and the
local `change`. -/
def postcodeLoopBody (cfg : Config) (postcode : postcode_t) (s : Flags × Bool) :
    Option (Flags × Bool) :=
  let code := postcode.2
  match guardedMatch s.1.started_post code cfg.POST_start with
  | none => none
  | some true => some ({ s.1 with started_post := true, ended_post := false }, true)
  | some false =>
    match guardedMatch s.1.ended_post code cfg.POST_end with
    | none => none
    | some true => some ({ s.1 with ended_post := true }, true)
    | some false => some s

/-- The loop of `updatePostcodeStatus` over the batch. -/
def postcodeLoop (cfg : Config) : List postcode_t → Flags × Bool → Option (Flags × Bool)
  | [], s => some s
  | postcode :: rest, s =>
    match postcodeLoopBody cfg postcode s with
    | none => none
    | some s1 => postcodeLoop cfg rest s1

/-- The handler `updatePostcodeStatus(postcodes)`: the flags it leaves and the
invocations of `updatePowerLed` it makes. -/
def updatePostcodeStatus (cfg : Config) (postcodes : List postcode_t) (st : Flags) :
    Option (Flags × List (List LedRequest)) :=
  match postcodeLoop cfg postcodes (st, false) with
  | none => none
  | some (st1, change) =>
    if change then some (st1, [updatePowerLed cfg st1]) else some (st1, [])

/-! ## `updatePowerStatus` -/

/-- The handler `updatePowerStatus(isPowerOn)`. -/
def updatePowerStatus (cfg : Config) (isPowerOn : Bool) (st : Flags) :
    Flags × List (List LedRequest) :=
  if st.host_power_on != isPowerOn then
    let st1 : Flags :=
      if !isPowerOn then { st with started_post := false, ended_post := false } else st
    let st2 : Flags := { st1 with host_power_on := isPowerOn }
    (st2, [updatePowerLed cfg st2])
  else (st, [])

/-! ## Startup sequence of `main` -/

/-- The part of `main` after a successful `readConfig`: `host_power_on` is
set from `poweredOn(bus)`, then the codes returned by `getPostCodesFromDBUS`
are passed to `updatePostcodeStatus`. -/
def startup (cfg : Config) (poweredOn : Bool) (history : List postcode_t) :
    Option (Flags × List (List LedRequest)) :=
  updatePostcodeStatus cfg history { initialFlags with host_power_on := poweredOn }

/-! ## Event sequences -/

/-- An event delivered by `PowerLEDMatch`: a change of the host state, handled
by `updatePowerStatus`, or new POST codes, handled by `updatePostcodeStatus`. -/
inductive Event where
  | powerStatus (isPowerOn : Bool)
  | postcodeStatus (postcodes : List postcode_t)
  deriving Repr, DecidableEq

/-- The handler call made for one event. -/
def dispatch (cfg : Config) (e : Event) (st : Flags) :
    Option (Flags × List (List LedRequest)) :=
  match e with
  | .powerStatus isPowerOn => some (updatePowerStatus cfg isPowerOn st)
  | .postcodeStatus postcodes => updatePostcodeStatus cfg postcodes st

/-- The flags after a sequence of events, handled one at a time in order. -/
def run (cfg : Config) : List Event → Flags → Option Flags
  | [], st => some st
  | e :: rest, st =>
    match dispatch cfg e st with
    | none => none
    | some r => run cfg rest r.1

/-- The flags say that the boot has ended only if they say it has started. -/
def endedImpliesStarted (st : Flags) : Prop :=
  st.ended_post = true → st.started_post = true

/-- The code is processed in start-then-end order: it is not a code that
matches `POST_end` without matching `POST_start` while `started_post` is
still false. -/
def codeInOrder (cfg : Config) (st : Flags) (postcode : postcode_t) : Bool :=
  st.started_post || checkSameCode postcode.2 cfg.POST_end != some 0 ||
    checkSameCode postcode.2 cfg.POST_start == some 0

/-- Every code of the batch is processed in start-then-end order, each one
judged on the flags left by the codes before it. -/
def batchInOrder (cfg : Config) : List postcode_t → Flags → Bool
  | [], _ => true
  | postcode :: rest, st =>
    codeInOrder cfg st postcode &&
      match postcodeLoopBody cfg postcode (st, false) with
      | none => true
      | some s1 => batchInOrder cfg rest s1.1

/-- Every code of every batch of the event sequence is processed in
start-then-end order. -/
def eventsInOrder (cfg : Config) : List Event → Flags → Bool
  | [], _ => true
  | e :: rest, st =>
    (match e with
      | .powerStatus _ => true
      | .postcodeStatus postcodes => batchInOrder cfg postcodes st) &&
      match dispatch cfg e st with
      | none => true
      | some r => eventsInOrder cfg rest r.1

/-! ## The rules of the specification -/

/-- The matching rule of the specification for two sequences of valid length:
they agree when aligned at their tail, the final byte of each excluded. -/
def tailAgree (a b : List uint8_t) : Prop :=
  ∀ k, 1 ≤ k → k < min a.length b.length →
    a[a.length - 1 - k]? = b[b.length - 1 - k]?

/-- The test "`code` matches `reference`" of the specification, decided by
`checkSameCode`; undefined where the comparison is. -/
def codeMatches (code reference : List uint8_t) : Option Bool :=
  (checkSameCode code reference).map (fun r => r == 0)

/-- The end check of the per-code rule: if the boot is not marked as ended
and the code matches `POST_end`, mark it as ended. -/
def endRule (cfg : Config) (st : Flags) (code : List uint8_t) : Option Flags :=
  if st.ended_post = false then
    (codeMatches code cfg.POST_end).map
      (fun m => if m then { st with ended_post := true } else st)
  else some st

/-- The per-code rule of the specification: the start check first (if the
boot is not marked as started and the code matches `POST_start`, mark it as
started and not ended), otherwise the end check. -/
def perCodeRule (cfg : Config) (st : Flags) (code : List uint8_t) : Option Flags :=
  if st.started_post = false then
    (codeMatches code cfg.POST_start).bind
      (fun m =>
        if m then some { st with started_post := true, ended_post := false }
        else endRule cfg st code)
  else endRule cfg st code

/-- The per-code rule applied to every code of a batch in arrival order: the
flags after the last code, and whether some code changed a flag. -/
def applyInOrder (cfg : Config) : List (List uint8_t) → Flags → Option (Flags × Bool)
  | [], st => some (st, false)
  | code :: rest, st =>
    (perCodeRule cfg st code).bind
      (fun st1 => (applyInOrder cfg rest st1).map (fun r => (r.1, st1 != st || r.2)))

/-! ## Sample inputs -/

/-- A configuration with two-byte reference codes. -/
def sampleConfig : Config :=
  { POST_start := [0x01, 0x10]
    POST_end := [0x01, 0xE0]
    BMC_booted_group := "bmc_booted"
    post_active_group := "post_active"
    fully_powered_on_group := "fully_powered_on" }

/-- A configuration in which `POST_start` is a suffix of `POST_end`. -/
def overlapConfig : Config :=
  { POST_start := [0x55]
    POST_end := [0xAA, 0x55]
    BMC_booted_group := "bmc_booted"
    post_active_group := "post_active"
    fully_powered_on_group := "fully_powered_on" }

/-! ## Lemmas on `checkSameCode` -/

/-- For sizes that fit the signed range and `s ≤ l`, the distance passed to
`advance` is `l - s - 1` as an integer; it is `-1` when the sizes are equal. -/
theorem advanceDistance_eq (l s : Nat) (hs : s ≤ l) (hl : l < 2 ^ 63) :
    advanceDistance l s = (l : Int) - (s : Int) - 1 := by
  have h1 : sizeSub l s = l - s := by
    simp only [sizeSub, sizeBits]; omega
  rw [advanceDistance, h1]
  simp only [sizeSub, toDifference, sizeBits]
  norm_num
  split <;> omega

/-- Dereferencing at a non-negative position is list indexing. -/
theorem deref_natCast (code : List uint8_t) (n : Nat) :
    deref code (n : Int) = code[n]? := by
  simp [deref]

/-- The comparison loop only ever returns `0` or `1`. -/
theorem compareLoop_result (longer_code : List uint8_t) (pos : Int) (shorter : List uint8_t)
    (r : Int) (h : compareLoop longer_code pos shorter = some r) : r = 0 ∨ r = 1 := by
  induction shorter generalizing pos with
  | nil => simp [compareLoop] at h; omega
  | cons s rest ih =>
    rw [compareLoop] at h
    cases hd : deref longer_code pos with
    | none => simp [hd] at h
    | some l =>
      simp only [hd] at h
      by_cases hne : l ≠ s
      · simp [hne] at h; omega
      · simp only [hne, if_false] at h
        exact ih _ h

/-- Started at a position from which the whole shorter range fits inside the
longer vector, the loop stays in bounds and compares the shorter range with
the window of the longer vector that starts there. -/
theorem compareLoop_window (longer_code : List uint8_t) (n : Nat) (shorter : List uint8_t)
    (hfit : n + shorter.length ≤ longer_code.length) :
    compareLoop longer_code (n : Int) shorter =
      some (if (longer_code.drop n).take shorter.length = shorter then 0 else 1) := by
  induction shorter generalizing n with
  | nil => simp [compareLoop]
  | cons s rest ih =>
    simp only [List.length_cons] at hfit
    have hn : n < longer_code.length := by omega
    rw [compareLoop, deref_natCast, List.getElem?_eq_getElem hn]
    simp only
    rw [List.drop_eq_getElem_cons hn, List.length_cons, List.take_succ_cons]
    by_cases hne : longer_code[n] ≠ s
    · rw [if_pos hne, if_neg]
      intro h
      exact hne (List.cons.inj h).1
    · have heq : longer_code[n] = s := not_not.mp hne
      rw [if_neg hne, show ((n : Int) + 1) = ((n + 1 : Nat) : Int) by push_cast; rfl,
        ih (n + 1) (by omega), heq]
      by_cases ht : List.take rest.length (List.drop (n + 1) longer_code) = rest
      · rw [if_pos ht, if_pos (by rw [ht])]
      · rw [if_neg ht, if_neg]
        intro h
        exact ht (List.cons.inj h).2

/-- A window of the longer vector equals the shorter one exactly when they
agree position by position. -/
theorem window_iff (longer_code shorter : List uint8_t) (n : Nat) :
    (longer_code.drop n).take shorter.length = shorter ↔
      ∀ i, i < shorter.length → longer_code[n + i]? = shorter[i]? := by
  constructor
  · intro h i hi
    have h1 : ((longer_code.drop n).take shorter.length)[i]? = shorter[i]? := by rw [h]
    rw [List.getElem?_take_of_lt hi, List.getElem?_drop] at h1
    exact h1
  · intro h
    apply List.ext_getElem?
    intro i
    by_cases hi : i < shorter.length
    · rw [List.getElem?_take_of_lt hi, List.getElem?_drop]
      exact h i hi
    · rw [List.getElem?_take_eq_none (by omega), List.getElem?_eq_none (by omega)]

/-- With both lengths between 1 and 9 the length check passes and the result
is that of the comparison loop. -/
theorem checkSameCode_of_valid (a b : List uint8_t)
    (ha : 1 ≤ a.length ∧ a.length ≤ 9) (hb : 1 ≤ b.length ∧ b.length ≤ 9) :
    checkSameCode a b =
      compareLoop (if a.length ≥ b.length then a else b)
        (advanceDistance (if a.length ≥ b.length then a else b).length
          (if a.length ≥ b.length then b else a).length)
        (if a.length ≥ b.length then b else a) := by
  unfold checkSameCode
  rw [if_neg (by omega)]

/-- The result of `checkSameCode` on a strictly longer and a shorter code, in
either argument order. -/
theorem checkSameCode_lt (longer_code shorter : List uint8_t)
    (hs : 1 ≤ shorter.length) (hlt : shorter.length < longer_code.length)
    (hl : longer_code.length ≤ 9) (a b : List uint8_t)
    (hab : (a = longer_code ∧ b = shorter) ∨ (a = shorter ∧ b = longer_code)) :
    checkSameCode a b =
      some (if ∀ i, i < shorter.length →
        longer_code[longer_code.length - shorter.length - 1 + i]? = shorter[i]? then 0 else 1) := by
  have hsel : (if a.length ≥ b.length then a else b) = longer_code ∧
      (if a.length ≥ b.length then b else a) = shorter := by
    rcases hab with ⟨rfl, rfl⟩ | ⟨rfl, rfl⟩
    · rw [if_pos (by omega), if_pos (by omega)]; exact ⟨rfl, rfl⟩
    · rw [if_neg (by omega), if_neg (by omega)]; exact ⟨rfl, rfl⟩
  have hva : 1 ≤ a.length ∧ a.length ≤ 9 := by
    rcases hab with ⟨rfl, rfl⟩ | ⟨rfl, rfl⟩ <;> omega
  have hvb : 1 ≤ b.length ∧ b.length ≤ 9 := by
    rcases hab with ⟨rfl, rfl⟩ | ⟨rfl, rfl⟩ <;> omega
  rw [checkSameCode_of_valid a b hva hvb, hsel.1, hsel.2,
    advanceDistance_eq _ _ (by omega) (by omega)]
  have hcast : (longer_code.length : Int) - (shorter.length : Int) - 1 =
      ((longer_code.length - shorter.length - 1 : Nat) : Int) := by omega
  rw [hcast, compareLoop_window _ _ _ (by omega)]
  congr 1
  by_cases h : List.take shorter.length
      (List.drop (longer_code.length - shorter.length - 1) longer_code) = shorter
  · rw [if_pos h, if_pos ((window_iff _ _ _).mp h)]
  · rw [if_neg h, if_neg (fun h1 => h ((window_iff _ _ _).mpr h1))]

/-! ## Properties of `checkSameCode` -/

/-- What the comparison computes on different lengths: for byte sequences `a`
and `b` whose lengths are between 1 and 9 and differ, `checkSameCode a b`
returns 0 exactly when every byte of the shorter sequence, its final byte
included, equals the byte of the longer sequence in the window that starts
`|longer| - |shorter| - 1` bytes in (`shorter[i] = longer[|longer| - |shorter|
- 1 + i]`), and returns 1 otherwise. The window ends one byte before the end
of the longer sequence, so the two iterators do not end at the same place. -/
theorem checkSameCode_unequal_lengths (a b : List uint8_t)
    (ha : 1 ≤ a.length ∧ a.length ≤ 9) (hb : 1 ≤ b.length ∧ b.length ≤ 9)
    (hne : a.length ≠ b.length) :
    let longer_code := if a.length ≥ b.length then a else b
    let shorter_code := if a.length ≥ b.length then b else a
    (checkSameCode a b = some 0 ↔
      ∀ i, i < shorter_code.length →
        longer_code[longer_code.length - shorter_code.length - 1 + i]? = shorter_code[i]?) ∧
    (checkSameCode a b = some 0 ∨ checkSameCode a b = some 1) := by
  intro longer_code shorter_code
  have hkey : checkSameCode a b =
      some (if ∀ i, i < shorter_code.length →
        longer_code[longer_code.length - shorter_code.length - 1 + i]? = shorter_code[i]?
        then 0 else 1) := by
    by_cases hge : a.length ≥ b.length
    · have h1 : longer_code = a := if_pos hge
      have h2 : shorter_code = b := if_pos hge
      rw [h1, h2]
      exact checkSameCode_lt a b hb.1 (by omega) ha.2 a b (Or.inl ⟨rfl, rfl⟩)
    · have h1 : longer_code = b := if_neg hge
      have h2 : shorter_code = a := if_neg hge
      rw [h1, h2]
      exact checkSameCode_lt b a ha.1 (by omega) hb.2 a b (Or.inr ⟨rfl, rfl⟩)
  rw [hkey]
  by_cases h : ∀ i, i < shorter_code.length →
        longer_code[longer_code.length - shorter_code.length - 1 + i]? = shorter_code[i]?
  · rw [if_pos h]
    exact ⟨⟨fun _ => h, fun _ => rfl⟩, Or.inl rfl⟩
  · rw [if_neg h]
    refine ⟨⟨fun h1 => ?_, fun h1 => absurd h1 h⟩, Or.inr rfl⟩
    exact absurd (Option.some.inj h1) (by decide)

/-- An instance of the window rule: `[0x01, 0x55, 0x00]` against
`[0x01, 0x55]` returns 0, the two-byte code being compared in full with the
first two bytes of the three-byte code. -/
theorem checkSameCode_window_example :
    checkSameCode [0x01, 0x55, 0x00] [0x01, 0x55] = some 0 :=
  (checkSameCode_unequal_lengths [0x01, 0x55, 0x00] [0x01, 0x55]
    (by decide) (by decide) (by decide)).1.mpr (by decide)

/-- Claim C1, failing input: observed `[0x01, 0x55, 0x00]` and reference
`[0x55, 0x00]` agree under tail alignment with the final byte of each
excluded (the one compared pair is `0x55` with `0x55`), which the rule stated
above `checkSameCode` in the source calls equivalent; the code advances the
longer iterator by `3 - 2 - 1 = 0` instead of `1`, compares `0x01` with `0x55`
and returns 1. -/
theorem checkSameCode_tail_example_no_match :
    tailAgree [0x01, 0x55, 0x00] [0x55, 0x00] ∧
      advanceDistance 3 2 = 0 ∧
      checkSameCode [0x01, 0x55, 0x00] [0x55, 0x00] = some 1 := by
  refine ⟨?_, by decide, by decide⟩
  intro k h1 h2
  have hk : k = 1 := by
    simp at h2
    omega
  subst hk
  rfl

/-- Claim C7: `checkSameCode a b` returns the error result `-1` if and only if
one of the two sequences is empty or longer than 9 bytes, whichever argument
it is; hence for two lengths between 1 and 9 the result is never `-1`. -/
theorem checkSameCode_error_iff (a b : List uint8_t) :
    checkSameCode a b = some (-1) ↔
      (a.length = 0 ∨ 9 < a.length ∨ b.length = 0 ∨ 9 < b.length) := by
  constructor
  · intro h
    by_contra hv
    rw [checkSameCode_of_valid a b (by omega) (by omega)] at h
    rcases compareLoop_result _ _ _ _ h with h0 | h1
    · exact absurd h0 (by decide)
    · exact absurd h1 (by decide)
  · intro h
    unfold checkSameCode
    rw [if_pos (by omega)]

/-- Claim C10, what the code does on equal lengths: for two sequences of the
same length between 1 and 9 the distance passed to `advance` is `-1`, the
position `-1` is outside the vector, and the first iteration of the loop
dereferences it, so `checkSameCode` reads out of bounds. -/
theorem checkSameCode_equal_lengths_out_of_bounds (a b : List uint8_t)
    (ha : 1 ≤ a.length ∧ a.length ≤ 9) (heq : a.length = b.length) :
    advanceDistance a.length b.length = -1 ∧ deref a (-1) = none ∧
      checkSameCode a b = none := by
  have hadv : advanceDistance a.length b.length = -1 := by
    rw [advanceDistance_eq _ _ (by omega) (by omega)]; omega
  refine ⟨hadv, by simp [deref], ?_⟩
  rw [checkSameCode_of_valid a b ha (by omega), if_pos (by omega), if_pos (by omega), hadv]
  cases b with
  | nil => rw [List.length_nil] at heq; omega
  | cons s rest => simp [compareLoop, deref]

/-- Claim C10, failing input: `[0x55, 0x00]` compared with `[0x55, 0x00]`. -/
theorem checkSameCode_equal_lengths_out_of_bounds_witness :
    advanceDistance 2 2 = -1 ∧ deref [0x55, 0x00] (-1) = none ∧
      checkSameCode [0x55, 0x00] [0x55, 0x00] = none :=
  checkSameCode_equal_lengths_out_of_bounds [0x55, 0x00] [0x55, 0x00] (by decide) (by decide)

/-! ## Properties of `updatePowerLed` -/

/-- Claim C2, what the code does when all three flags are true: the
invocation issues two requests only, `post_active_group` off and
`fully_powered_on_group` on; no request is made for `BMC_booted_group`, so
the only group it de-asserts is `post_active_group`. -/
theorem updatePowerLed_poweredOnComplete_requests (cfg : Config) :
    updatePowerLed cfg { started_post := true, ended_post := true, host_power_on := true } =
        [(cfg.post_active_group, false), (cfg.fully_powered_on_group, true)] ∧
      (updatePowerLed cfg
        { started_post := true, ended_post := true, host_power_on := true }).length = 2 ∧
      deasserted (updatePowerLed cfg
        { started_post := true, ended_post := true, host_power_on := true }) =
        [cfg.post_active_group] := by
  refine ⟨rfl, rfl, rfl⟩

/-- Claim C3: for each of the 8 combinations of the flags `updatePowerLed`
takes one of its three branches (it never falls through without a request)
and asserts exactly one group: `BMC_booted_group` when `host_power_on` or
`started_post` is false, `post_active_group` when `host_power_on` and
`started_post` are true and `ended_post` is false, `fully_powered_on_group`
when all three are true. -/
theorem updatePowerLed_selects_one (cfg : Config) (st : Flags) :
    updatePowerLed cfg st ≠ [] ∧
      (asserted (updatePowerLed cfg st)).length = 1 ∧
      (st.host_power_on = false ∨ st.started_post = false →
        asserted (updatePowerLed cfg st) = [cfg.BMC_booted_group]) ∧
      (st.host_power_on = true ∧ st.started_post = true ∧ st.ended_post = false →
        asserted (updatePowerLed cfg st) = [cfg.post_active_group]) ∧
      (st.host_power_on = true ∧ st.started_post = true ∧ st.ended_post = true →
        asserted (updatePowerLed cfg st) = [cfg.fully_powered_on_group]) := by
  rcases st with ⟨s, e, h⟩
  cases s <;> cases e <;> cases h <;> simp [updatePowerLed, asserted]

/-! ## Properties of `updatePowerStatus` -/

/-- Claim C4, counterexample: with `host_power_on` already false and both POST
flags true, `updatePowerStatus(false)` changes nothing; both flags stay true
and `updatePowerLed` is not invoked. -/
theorem updatePowerStatus_off_when_already_off :
    updatePowerStatus sampleConfig false
        { started_post := true, ended_post := true, host_power_on := false } =
      ({ started_post := true, ended_post := true, host_power_on := false }, []) := by
  rfl

/-- Claim C4, as the code has it: for every tracker state in which
`host_power_on` is true, after `updatePowerStatus(false)` the flags
`started_post`, `ended_post` and `host_power_on` are all false. -/
theorem updatePowerStatus_off_resets (cfg : Config) (st : Flags)
    (hon : st.host_power_on = true) :
    (updatePowerStatus cfg false st).1.started_post = false ∧
      (updatePowerStatus cfg false st).1.ended_post = false ∧
      (updatePowerStatus cfg false st).1.host_power_on = false := by
  rcases st with ⟨s, e, h⟩
  simp only at hon
  subst hon
  simp [updatePowerStatus]

/-- Claim C4, instance of the amended statement: power-off from the state with
all three flags true. -/
theorem updatePowerStatus_off_resets_witness :
    (updatePowerStatus sampleConfig false
        { started_post := true, ended_post := true, host_power_on := true }).1.started_post
        = false ∧
      (updatePowerStatus sampleConfig false
        { started_post := true, ended_post := true, host_power_on := true }).1.ended_post
        = false ∧
      (updatePowerStatus sampleConfig false
        { started_post := true, ended_post := true, host_power_on := true }).1.host_power_on
        = false :=
  updatePowerStatus_off_resets sampleConfig
    { started_post := true, ended_post := true, host_power_on := true } rfl

/-! ## Lemmas on `updatePostcodeStatus` -/

/-- One iteration of the loop applies the per-code rule to the flags and sets
`change` when the rule changed a flag. -/
theorem postcodeLoopBody_eq_perCodeRule (cfg : Config) (postcode : postcode_t)
    (st : Flags) (change : Bool) :
    postcodeLoopBody cfg postcode (st, change) =
      (perCodeRule cfg st postcode.2).map (fun st1 => (st1, change || st1 != st)) := by
  rcases st with ⟨s, e, h⟩
  simp only [postcodeLoopBody, guardedMatch, perCodeRule, endRule, codeMatches]
  generalize Option.map (fun r => r == 0) (checkSameCode postcode.2 cfg.POST_start) = m1
  generalize Option.map (fun r => r == 0) (checkSameCode postcode.2 cfg.POST_end) = m2
  rcases m1 with _ | _ | _ <;> rcases m2 with _ | _ | _ <;> cases s <;> cases e <;> simp

/-- The loop over a batch applies the per-code rule to every code in order and
accumulates in `change` whether some code changed a flag. -/
theorem postcodeLoop_eq_applyInOrder (cfg : Config) (postcodes : List postcode_t)
    (st : Flags) (change : Bool) :
    postcodeLoop cfg postcodes (st, change) =
      (applyInOrder cfg (postcodes.map Prod.snd) st).map
        (fun r => (r.1, change || r.2)) := by
  induction postcodes generalizing st change with
  | nil => simp [postcodeLoop, applyInOrder]
  | cons p rest ih =>
    rw [postcodeLoop, postcodeLoopBody_eq_perCodeRule, List.map_cons, applyInOrder]
    cases hr : perCodeRule cfg st p.2 with
    | none => simp
    | some st1 =>
      simp only [Option.map_some', Option.some_bind, ih]
      cases applyInOrder cfg (rest.map Prod.snd) st1 with
      | none => simp
      | some r => simp [Bool.or_assoc]

/-- The handler leaves the flags of the per-code rule applied in order and
invokes `updatePowerLed` once when some code changed a flag, not otherwise. -/
theorem updatePostcodeStatus_eq_applyInOrder (cfg : Config) (postcodes : List postcode_t)
    (st : Flags) :
    updatePostcodeStatus cfg postcodes st =
      (applyInOrder cfg (postcodes.map Prod.snd) st).map
        (fun r => (r.1, if r.2 then [updatePowerLed cfg r.1] else [])) := by
  unfold updatePostcodeStatus
  rw [postcodeLoop_eq_applyInOrder]
  cases applyInOrder cfg (postcodes.map Prod.snd) st with
  | none => rfl
  | some r =>
    rcases r with ⟨st1, c⟩
    cases c <;> simp

/-- A comparison that returns 0 is a match. -/
theorem codeMatches_of_zero (code reference : List uint8_t)
    (h : checkSameCode code reference = some 0) : codeMatches code reference = some true := by
  simp [codeMatches, h]

/-- A comparison that returns a non-zero result is not a match. -/
theorem codeMatches_of_nonzero (code reference : List uint8_t)
    (h : ∃ r, checkSameCode code reference = some r ∧ r ≠ 0) :
    codeMatches code reference = some false := by
  obtain ⟨r, hr, hne⟩ := h
  simp [codeMatches, hr, hne]

/-! ## Properties of `updatePostcodeStatus` -/

/-- Claim C5, counterexample: with `POST_start = [0x55]` and
`POST_end = [0xAA, 0x55]` the code `[0xAA, 0x55, 0x00]` matches `POST_start`;
delivered from the initial flags it sets `started_post`, and delivered a
second time it sets `ended_post` and invokes `updatePowerLed` again. -/
theorem start_code_redelivery_overlap :
    checkSameCode [0xAA, 0x55, 0x00] overlapConfig.POST_start = some 0 ∧
      updatePostcodeStatus overlapConfig [(0, [0xAA, 0x55, 0x00])] initialFlags =
        some ({ started_post := true, ended_post := false, host_power_on := false },
          [updatePowerLed overlapConfig
            { started_post := true, ended_post := false, host_power_on := false }]) ∧
      updatePostcodeStatus overlapConfig [(0, [0xAA, 0x55, 0x00])]
          { started_post := true, ended_post := false, host_power_on := false } =
        some ({ started_post := true, ended_post := true, host_power_on := false },
          [updatePowerLed overlapConfig
            { started_post := true, ended_post := true, host_power_on := false }]) := by
  refine ⟨by decide, by decide, by decide⟩

/-- Claim C5, as the code has it: for every tracker state and every observed
code for which `checkSameCode(code, POST_start)` is 0 and
`checkSameCode(code, POST_end)` returns a non-zero result, delivering the
code twice in succession leaves `started_post` true after the first
delivery, and the second delivery changes no flag and does not invoke
`updatePowerLed`. -/
theorem start_code_redelivery (cfg : Config) (st : Flags) (postcode : postcode_t)
    (hstart : checkSameCode postcode.2 cfg.POST_start = some 0)
    (hend : ∃ r, checkSameCode postcode.2 cfg.POST_end = some r ∧ r ≠ 0) :
    ∃ st1 out1,
      updatePostcodeStatus cfg [postcode] st = some (st1, out1) ∧
        st1.started_post = true ∧
        updatePostcodeStatus cfg [postcode] st1 = some (st1, []) := by
  have hm1 := codeMatches_of_zero _ _ hstart
  have hm2 := codeMatches_of_nonzero _ _ hend
  rcases st with ⟨s, e, h⟩
  cases s <;> cases e <;>
    simp [updatePostcodeStatus_eq_applyInOrder, applyInOrder, perCodeRule, endRule, hm1, hm2]

/-- Claim C5, instance of the amended statement: the start code
`[0x01, 0x10, 0x00]` of the sample configuration, delivered twice from the
initial flags. -/
theorem start_code_redelivery_witness :
    ∃ st1 out1,
      updatePostcodeStatus sampleConfig [(0, [0x01, 0x10, 0x00])] initialFlags =
          some (st1, out1) ∧
        st1.started_post = true ∧
        updatePostcodeStatus sampleConfig [(0, [0x01, 0x10, 0x00])] st1 = some (st1, []) :=
  start_code_redelivery sampleConfig initialFlags (0, [0x01, 0x10, 0x00])
    (by decide) ⟨1, by decide, by decide⟩

/-- Claim C8: for every batch and every starting state `updatePostcodeStatus`
leaves the flags obtained by applying the per-code rule (start check first,
otherwise end check) to every code in arrival order, and invokes
`updatePowerLed` exactly once if some code changed a flag and not at all
otherwise; both sides are undefined together when a comparison the rule
evaluates is. In particular, for a batch `[A, B, C]` where both comparisons of
`A` return a non-zero result, `B` matches `POST_start` and `C` matches
`POST_end`, processed from `started_post = false` and `ended_post = false`,
both flags are true afterwards and `updatePowerLed` has been invoked exactly
once, on the final flags. -/
theorem updatePostcodeStatus_batch (cfg : Config) :
    (∀ (postcodes : List postcode_t) (st : Flags),
      updatePostcodeStatus cfg postcodes st =
        (applyInOrder cfg (postcodes.map Prod.snd) st).map
          (fun r => (r.1, if r.2 then [updatePowerLed cfg r.1] else []))) ∧
    (∀ (A B C : postcode_t) (poweredOn : Bool),
      (∃ r, checkSameCode A.2 cfg.POST_start = some r ∧ r ≠ 0) →
      (∃ r, checkSameCode A.2 cfg.POST_end = some r ∧ r ≠ 0) →
      checkSameCode B.2 cfg.POST_start = some 0 →
      checkSameCode C.2 cfg.POST_end = some 0 →
      updatePostcodeStatus cfg [A, B, C]
          { started_post := false, ended_post := false, host_power_on := poweredOn } =
        some ({ started_post := true, ended_post := true, host_power_on := poweredOn },
          [updatePowerLed cfg
            { started_post := true, ended_post := true, host_power_on := poweredOn }])) := by
  refine ⟨updatePostcodeStatus_eq_applyInOrder cfg, ?_⟩
  intro A B C poweredOn hA1 hA2 hB hC
  have mA1 := codeMatches_of_nonzero _ _ hA1
  have mA2 := codeMatches_of_nonzero _ _ hA2
  have mB := codeMatches_of_zero _ _ hB
  have mC := codeMatches_of_zero _ _ hC
  simp [updatePostcodeStatus_eq_applyInOrder, applyInOrder, perCodeRule, endRule,
    mA1, mA2, mB, mC]

/-- Claim C8, instance of the batch scenario on the sample configuration:
`[0x02, 0x33, 0x00]` matches neither reference, `[0x01, 0x10, 0x00]` matches
`POST_start` and `[0x01, 0xE0, 0x00]` matches `POST_end`. -/
theorem updatePostcodeStatus_batch_witness :
    updatePostcodeStatus sampleConfig
        [(0, [0x02, 0x33, 0x00]), (0, [0x01, 0x10, 0x00]), (0, [0x01, 0xE0, 0x00])]
        { started_post := false, ended_post := false, host_power_on := true } =
      some ({ started_post := true, ended_post := true, host_power_on := true },
        [updatePowerLed sampleConfig
          { started_post := true, ended_post := true, host_power_on := true }]) :=
  (updatePostcodeStatus_batch sampleConfig).2
    (0, [0x02, 0x33, 0x00]) (0, [0x01, 0x10, 0x00]) (0, [0x01, 0xE0, 0x00]) true
    ⟨1, by decide, by decide⟩ ⟨1, by decide, by decide⟩ (by decide) (by decide)

/-! ## Lemmas on event sequences -/

/-- The per-code rule keeps "ended implies started" for a code processed in
start-then-end order. -/
theorem perCodeRule_preserves (cfg : Config) (st st1 : Flags) (postcode : postcode_t)
    (hstep : perCodeRule cfg st postcode.2 = some st1)
    (hinv : endedImpliesStarted st) (hord : codeInOrder cfg st postcode = true) :
    endedImpliesStarted st1 := by
  rcases st with ⟨s, e, h⟩
  rcases st1 with ⟨s1, e1, h1⟩
  simp only [perCodeRule, endRule, codeMatches, codeInOrder, endedImpliesStarted] at *
  revert hstep hord hinv
  generalize checkSameCode postcode.2 cfg.POST_start = c1
  generalize checkSameCode postcode.2 cfg.POST_end = c2
  rcases c1 with _ | r1 <;> rcases c2 with _ | r2 <;> cases s <;> cases e <;>
    simp <;> intros <;> (try split_ifs at *) <;> simp_all

/-- The loop over a batch keeps "ended implies started" when every code is
processed in start-then-end order. -/
theorem postcodeLoop_preserves (cfg : Config) (postcodes : List postcode_t)
    (st st1 : Flags) (change change1 : Bool)
    (hloop : postcodeLoop cfg postcodes (st, change) = some (st1, change1))
    (hinv : endedImpliesStarted st) (hord : batchInOrder cfg postcodes st = true) :
    endedImpliesStarted st1 := by
  induction postcodes generalizing st change with
  | nil =>
    simp only [postcodeLoop, Option.some.injEq, Prod.mk.injEq] at hloop
    rw [← hloop.1]; exact hinv
  | cons p rest ih =>
    rw [postcodeLoop, postcodeLoopBody_eq_perCodeRule] at hloop
    rw [batchInOrder, postcodeLoopBody_eq_perCodeRule, Bool.and_eq_true] at hord
    cases hr : perCodeRule cfg st p.2 with
    | none => simp [hr] at hloop
    | some st2 =>
      simp only [hr, Option.map_some'] at hloop hord
      exact ih st2 _ hloop (perCodeRule_preserves cfg st st2 p hr hinv hord.1) hord.2

/-- The handler `updatePostcodeStatus` keeps "ended implies started" on a
batch processed in start-then-end order. -/
theorem updatePostcodeStatus_preserves (cfg : Config) (postcodes : List postcode_t)
    (st : Flags) (r : Flags × List (List LedRequest))
    (hcall : updatePostcodeStatus cfg postcodes st = some r)
    (hinv : endedImpliesStarted st) (hord : batchInOrder cfg postcodes st = true) :
    endedImpliesStarted r.1 := by
  unfold updatePostcodeStatus at hcall
  cases hl : postcodeLoop cfg postcodes (st, false) with
  | none => simp [hl] at hcall
  | some s1 =>
    rcases s1 with ⟨st1, change1⟩
    have hst1 := postcodeLoop_preserves cfg postcodes st st1 false change1 hl hinv hord
    simp only [hl] at hcall
    cases change1 <;> simp at hcall <;> rw [← hcall] <;> exact hst1

/-- The handler `updatePowerStatus` keeps "ended implies started". -/
theorem updatePowerStatus_preserves (cfg : Config) (isPowerOn : Bool) (st : Flags)
    (hinv : endedImpliesStarted st) :
    endedImpliesStarted (updatePowerStatus cfg isPowerOn st).1 := by
  rcases st with ⟨s, e, h⟩
  revert hinv
  cases s <;> cases e <;> cases h <;> cases isPowerOn <;>
    simp [endedImpliesStarted, updatePowerStatus]

/-- An event sequence whose codes are all processed in start-then-end order
keeps "ended implies started". -/
theorem run_preserves (cfg : Config) (events : List Event) (st st1 : Flags)
    (hrun : run cfg events st = some st1)
    (hinv : endedImpliesStarted st) (hord : eventsInOrder cfg events st = true) :
    endedImpliesStarted st1 := by
  induction events generalizing st with
  | nil =>
    simp only [run, Option.some.injEq] at hrun
    rw [← hrun]; exact hinv
  | cons e rest ih =>
    rw [run] at hrun
    cases hd : dispatch cfg e st with
    | none => simp [hd] at hrun
    | some r =>
      simp only [hd] at hrun
      cases e with
      | powerStatus isPowerOn =>
        rw [eventsInOrder, Bool.and_eq_true] at hord
        simp only [hd] at hord
        refine ih r.1 hrun ?_ hord.2
        simp only [dispatch, Option.some.injEq] at hd
        rw [← hd]
        exact updatePowerStatus_preserves cfg isPowerOn st hinv
      | postcodeStatus postcodes =>
        rw [eventsInOrder, Bool.and_eq_true] at hord
        simp only [hd] at hord
        exact ih r.1 hrun
          (updatePostcodeStatus_preserves cfg postcodes st r hd hinv hord.1) hord.2

/-! ## Properties of event sequences -/

/-- Claim C6, counterexample: from the initial flags, one batch holding the
end code `[0x01, 0xE0, 0x00]` of the sample configuration leaves
`ended_post = true` with `started_post = false`. -/
theorem ended_without_started_reachable :
    run sampleConfig [Event.postcodeStatus [(0, [0x01, 0xE0, 0x00])]] initialFlags =
        some { started_post := false, ended_post := true, host_power_on := false } ∧
      ¬ endedImpliesStarted
        { started_post := false, ended_post := true, host_power_on := false } := by
  refine ⟨by decide, ?_⟩
  simp [endedImpliesStarted]

/-- Claim C6, as the code has it: in every state reached from the initial
state (`started_post = false`, `ended_post = false`, any `host_power_on`) by a
finite sequence of `updatePowerStatus` and `updatePostcodeStatus` events in
which no code that matches `POST_end` without matching `POST_start` is
processed while `started_post` is false, `ended_post = true` implies
`started_post = true`. -/
theorem ended_implies_started_in_order (cfg : Config) (poweredOn : Bool)
    (events : List Event) (st : Flags)
    (hrun : run cfg events { initialFlags with host_power_on := poweredOn } = some st)
    (hord : eventsInOrder cfg events { initialFlags with host_power_on := poweredOn } = true) :
    st.ended_post = true → st.started_post = true :=
  run_preserves cfg events _ st hrun (by simp [endedImpliesStarted, initialFlags]) hord

/-- Claim C6, instance of the amended statement: power on, then the start
code, then the end code of the sample configuration; the run is in
start-then-end order and ends with both flags true. -/
theorem ended_implies_started_in_order_witness :
    run sampleConfig
        [Event.powerStatus true, Event.postcodeStatus [(0, [0x01, 0x10, 0x00])],
          Event.postcodeStatus [(0, [0x01, 0xE0, 0x00])]]
        { initialFlags with host_power_on := false } =
      some { started_post := true, ended_post := true, host_power_on := true } ∧
    eventsInOrder sampleConfig
        [Event.powerStatus true, Event.postcodeStatus [(0, [0x01, 0x10, 0x00])],
          Event.postcodeStatus [(0, [0x01, 0xE0, 0x00])]]
        { initialFlags with host_power_on := false } = true ∧
    ({ started_post := true, ended_post := true, host_power_on := true } : Flags).started_post
      = true :=
  ⟨by decide, by decide,
    ended_implies_started_in_order sampleConfig false
      [Event.powerStatus true, Event.postcodeStatus [(0, [0x01, 0x10, 0x00])],
        Event.postcodeStatus [(0, [0x01, 0xE0, 0x00])]]
      { started_post := true, ended_post := true, host_power_on := true }
      (by decide) (by decide) rfl⟩

/-! ## Properties of the startup sequence -/

/-- Claim C9, counterexample: startup with host power off and an empty code
history invokes `updatePowerLed` not once; no LED-group assignment is issued. -/
theorem startup_off_empty_history_no_requests :
    startup sampleConfig false [] = some (initialFlags, []) := by
  rfl

/-- Claim C9, as the code has it: startup with host power off and an empty
code history leaves all three flags false and issues no LED-group assignment;
the flags it leaves are those on which `updatePowerLed`, once invoked, issues
the Standby assignments (`post_active_group` and `fully_powered_on_group`
de-asserted, `BMC_booted_group` asserted). -/
theorem startup_off_empty_history (cfg : Config) :
    startup cfg false [] = some (initialFlags, []) ∧
      updatePowerLed cfg initialFlags =
        [(cfg.post_active_group, false), (cfg.fully_powered_on_group, false),
         (cfg.BMC_booted_group, true)] := by
  exact ⟨rfl, rfl⟩

end PowerLed
